import Mathlib

/-!
Verification of the telerelay forwarding pipeline.

This file gives a shallow embedding, in Lean, of the forwarding core of the
repository (src/filters.py, src/dedup.py, src/rule.py,
src/forwarder/forwarder.py, src/forwarder/media_group.py,
src/forwarder/downloader.py, src/bot_manager.py) and proves properties of the
embedded definitions.  Machine side effects (network sends, downloads,
logging) are modelled by an explicit environment of outcomes and by event
traces; timestamps are explicit integer parameters; Python exceptions are
modelled as outcome values.
-/

namespace Telerelay

/-- Character-list prefix test (structural recursion so that concrete
instances reduce in the kernel). -/
def pyStartsWith : List Char → List Char → Bool
  | [], _ => true
  | _ :: _, [] => false
  | a :: as, b :: bs => a == b && pyStartsWith as bs

/-- Character-list substring test. -/
def pyContainsChars (needle : List Char) : List Char → Bool
  | [] => needle.isEmpty
  | b :: bs => pyStartsWith needle (b :: bs) || pyContainsChars needle bs

/-- Python substring test, the binary operator testing containment of
needle in hay; an empty needle is contained in every string. -/
def pyInStr (needle hay : String) : Bool :=
  pyContainsChars needle.data hay.data

/-- Python str.lower, on the ASCII range (the filter keywords and modes of
this program). -/
def pyLower (s : String) : String :=
  ⟨s.data.map Char.toLower⟩

/-- Python str.strip with no argument: drop leading and trailing
whitespace. -/
def pyStrip (s : String) : String :=
  ⟨((s.data.dropWhile Char.isWhitespace).reverse.dropWhile
      Char.isWhitespace).reverse⟩

/-- Truthiness of an optional integer in Python: None and 0 are falsy. -/
def senderTruthy : Option Int → Bool
  | none => false
  | some n => n != 0

/-! ## Message model (the telethon fields the pipeline reads) -/

/-- One attribute of a telethon document, as inspected by get_media_type
in src/filters.py. -/
inductive DocAttr
  | sticker
  | animated
  | video (round_message : Bool)
  | audio (voice : Bool)
  | otherAttr
deriving DecidableEq

/-- The document payload of a MessageMediaDocument: its attribute list and
its size in bytes (size 0 standing for a missing size, matching the
Python expression doc.size or 0). -/
structure TLDocument where
  attributes : List DocAttr
  size : Nat
deriving DecidableEq

/-- The media payload of a message, restricted to the isinstance cases that
src/filters.py distinguishes.  A photo carries its size list, each element
being some n when the size object has a size attribute n. -/
inductive TLMedia
  | mediaPhoto (photo : Option (List (Option Nat)))
  | mediaWebPage
  | mediaDocument (doc : Option TLDocument)
  | mediaOther
deriving DecidableEq

/-- The fields of a telethon Message that the pipeline reads.  None text is
identified with the empty string, matching the pervasive use of
message.text or the empty string in the source. -/
structure TLMessage where
  id : Int
  chat_id : Int
  grouped_id : Option Int
  text : String
  media : Option TLMedia
deriving DecidableEq

/-- get_media_type on a document attribute list: the first attribute that
matches one of the isinstance checks decides the type; an exhausted list
yields document. -/
def docAttrsType : List DocAttr → String
  | [] => "document"
  | .sticker :: _ => "sticker"
  | .animated :: _ => "animation"
  | .video _ :: _ => "video"
  | .audio voice :: _ => if voice then "voice" else "audio"
  | .otherAttr :: rest => docAttrsType rest

/-- get_media_type from src/filters.py. -/
def get_media_type (m : TLMessage) : String :=
  match m.media with
  | none => "text"
  | some (.mediaPhoto _) => "photo"
  | some .mediaWebPage => "webpage"
  | some (.mediaDocument (some doc)) => docAttrsType doc.attributes
  | some (.mediaDocument none) => "text"
  | some .mediaOther => "text"

/-- get_file_size from src/filters.py: document size, else the last photo
size carrying a size attribute, else 0. -/
def get_file_size (m : TLMessage) : Nat :=
  match m.media with
  | none => 0
  | some (.mediaDocument (some doc)) => doc.size
  | some (.mediaPhoto (some sizes)) =>
      match (sizes.reverse.filterMap id).head? with
      | some n => n
      | none => 0
  | _ => 0

/-! ## MessageFilter (src/filters.py) -/

/-- The state of a MessageFilter instance.  A compiled regex pattern is
modelled extensionally as its search function on strings; compiled_patterns
holds only the patterns whose compilation succeeded. -/
structure MessageFilter where
  rule_name : String
  regex_patterns : List String
  keywords : List String
  mode : String
  ignored_user_ids : List Int
  ignored_keywords : List String
  media_types : List String
  max_file_size : Nat
  min_file_size : Nat
  compiled_patterns : List (String → Bool)

/-- The MessageFilter constructor: it lowercases the mode and compiles the
regex patterns, silently dropping every pattern whose compilation fails
(re.error is caught and only logged). -/
def MessageFilter.init (compile : String → Option (String → Bool))
    (rule_name : String) (regex_patterns keywords : List String) (mode : String)
    (ignored_user_ids : List Int) (ignored_keywords : List String)
    (media_types : List String) (max_file_size min_file_size : Nat) :
    MessageFilter :=
  { rule_name := rule_name
    regex_patterns := regex_patterns
    keywords := keywords
    mode := pyLower mode
    ignored_user_ids := ignored_user_ids
    ignored_keywords := ignored_keywords
    media_types := media_types
    max_file_size := max_file_size
    min_file_size := min_file_size
    compiled_patterns := regex_patterns.filterMap compile }

/-- MessageFilter.check_media_type: an empty allowed list admits every
message, otherwise the derived media type must be in the list. -/
def MessageFilter.check_media_type (f : MessageFilter) (m : TLMessage) : Bool :=
  if f.media_types.isEmpty then true
  else f.media_types.contains (get_media_type m)

/-- MessageFilter.check_file_size: messages without a file (size 0) pass;
otherwise the size must reach the minimum and, when a maximum is set,
not exceed it. -/
def MessageFilter.check_file_size (f : MessageFilter) (m : TLMessage) : Bool :=
  let file_size := get_file_size m
  if file_size = 0 then true
  else if f.min_file_size > 0 && file_size < f.min_file_size then false
  else if f.max_file_size > 0 && file_size > f.max_file_size then false
  else true

/-- MessageFilter.matches_text: empty text never matches; otherwise some
compiled pattern finds a match, or some keyword is a case-insensitive
substring. -/
def MessageFilter.matches_text (f : MessageFilter) (text : String) : Bool :=
  if text = "" then false
  else if f.compiled_patterns.any (fun p => p text) then true
  else f.keywords.any (fun k => pyInStr (pyLower k) (pyLower text))

/-- MessageFilter.is_ignored: a truthy sender id in the ignored user list,
or an ignored keyword occurring (case-insensitively) in a nonempty text. -/
def MessageFilter.is_ignored (f : MessageFilter) (text : String)
    (sender_id : Option Int) : Bool :=
  if senderTruthy sender_id &&
      (match sender_id with
       | some s => f.ignored_user_ids.contains s
       | none => false) then true
  else if text != "" &&
      f.ignored_keywords.any (fun k => pyInStr (pyLower k) (pyLower text)) then true
  else false

/-- The argument of should_forward: either a plain string (the legacy
calling convention) or a Message object. -/
inductive FilterInput
  | str (text : String)
  | msg (m : TLMessage)

/-- The message text examined by should_forward for a given input. -/
def FilterInput.textOf : FilterInput → String
  | .str t => t
  | .msg m => m.text

/-- MessageFilter.should_forward from src/filters.py: ignore check, then
media type and file size checks (Message objects only), then the text
matching step; with no compiled pattern and no keyword the outcome is
whether the mode is blacklist. -/
def MessageFilter.should_forward (f : MessageFilter) (input : FilterInput)
    (sender_id : Option Int) : Bool :=
  let text := input.textOf
  if f.is_ignored text sender_id then false
  else if (match input with
           | .msg m => !(f.check_media_type m)
           | .str _ => false) then false
  else if (match input with
           | .msg m => !(f.check_file_size m)
           | .str _ => false) then false
  else if f.compiled_patterns.isEmpty && f.keywords.isEmpty then
    f.mode == "blacklist"
  else
    let matched := f.matches_text text
    if f.mode == "whitelist" then matched else !matched

/-! ## DeduplicateCache (src/dedup.py) -/

/-- The state of a DeduplicateCache: the window in seconds and the mapping
from content hash to last-seen timestamp, as an association list with
distinct keys.  Timestamps are integers (time.time modelled as an explicit
clock parameter). -/
structure DeduplicateCache where
  window : Int
  cache : List (String × Int)
deriving DecidableEq

/-- DeduplicateCache.is_duplicate: empty or whitespace-only text is never a
duplicate; otherwise expired entries are purged first, then a hit in the
purged cache is a duplicate (leaving its timestamp untouched), and a miss
records the current time.  The hashing function (md5, truncated) enters as
a parameter; the results proved below hold for every hashing function. -/
def DeduplicateCache.is_duplicate (hash : String → String)
    (c : DeduplicateCache) (text : String) (now : Int) :
    Bool × DeduplicateCache :=
  if text = "" || pyStrip text = "" then (false, c)
  else
    let h := hash text
    let purged := c.cache.filter (fun kv => now - kv.2 < c.window)
    if purged.any (fun kv => kv.1 == h) then
      (true, { c with cache := purged })
    else
      (false, { c with cache := purged ++ [(h, now)] })

/-! ## MediaGroupHandler (src/forwarder/media_group.py) -/

/-- MediaGroupHandler.should_forward: a group with no textual member passes
unconditionally; otherwise it passes when some member passes the filter. -/
def mediaGroupShouldForward (messages : List TLMessage) (f : MessageFilter)
    (sender_id : Option Int) : Bool :=
  let has_text := messages.any (fun m => m.text != "")
  if !has_text then true
  else if messages.any (fun m => f.should_forward (.msg m) sender_id) then true
  else false

/-! ## ForwardingRule (src/rule.py) -/

/-- The ForwardingRule dataclass with exactly the fields declared in
src/rule.py (chat identifiers simplified to integers; the float delay to an
integer number of milliseconds is irrelevant to the claims and kept as an
integer). -/
structure ForwardingRule where
  name : String
  enabled : Bool
  source_chats : List Int
  target_chats : List Int
  filter_mode : String
  filter_keywords : List String
  filter_regex_patterns : List String
  filter_media_types : List String
  filter_max_file_size : Nat
  filter_min_file_size : Nat
  ignored_user_ids : List Int
  ignored_keywords : List String
  preserve_format : Bool
  add_source_info : Bool
  delay : Int
  force_forward : Bool

/-- The names of the fields declared on the ForwardingRule dataclass in
src/rule.py, in declaration order.  getattr on a ForwardingRule succeeds
exactly for these names (no construction path sets any other attribute
before the pipeline starts). -/
def ruleFieldNames : List String :=
  ["name", "enabled", "source_chats", "target_chats",
   "filter_mode", "filter_keywords", "filter_regex_patterns",
   "filter_media_types", "filter_max_file_size", "filter_min_file_size",
   "ignored_user_ids", "ignored_keywords",
   "preserve_format", "add_source_info", "delay", "force_forward"]

/-- The rule attributes read by MessageForwarder: deduplicate and
deduplicate_window in the constructor (line 50 of
src/forwarder/forwarder.py), hide_sender in forward_message (lines
119-120), besides name, target_chats, force_forward, delay and
preserve_format. -/
def forwarderRuleReads : List String :=
  ["name", "target_chats", "delay", "force_forward", "preserve_format",
   "hide_sender", "deduplicate", "deduplicate_window"]

/-- ForwardingRule.from_dict as far as the ignore section is concerned: the
comprehension keeps only truthy user ids, so the id 0 never enters
ignored_user_ids of a rule loaded from configuration. -/
def fromDictIgnoredUserIds (user_ids : List Int) : List Int :=
  user_ids.filter (fun uid => uid != 0)

/-- The MessageFilter that bot_manager builds for a rule (lines 166-176 of
src/bot_manager.py), parametrised by the regex compiler. -/
def filterOfRule (compile : String → Option (String → Bool))
    (r : ForwardingRule) : MessageFilter :=
  MessageFilter.init compile r.name r.filter_regex_patterns r.filter_keywords
    r.filter_mode r.ignored_user_ids r.ignored_keywords r.filter_media_types
    r.filter_max_file_size r.filter_min_file_size

/-! ## Central dispatcher (src/bot_manager.py, _central_message_handler) -/

/-- One entry of rule_forwarder_map as seen by the central handler: the
rule (for its source chats and name) and its filter.  The forwarder itself
is identified by the entry position. -/
structure DispatchEntry where
  source_chats : List Int
  filter : MessageFilter

/-- The observable outcome of _central_message_handler: the indices of the
forwarders that are handed the message, the indices recorded in
filtered_by, and the indices whose in-memory filtered_count is
incremented. -/
structure DispatchResult where
  matched : List Nat
  filtered_by : List Nat
  increments : List Nat
deriving DecidableEq

/-- The loop of _central_message_handler: for each entry whose source chats
contain the chat, a media-group message is matched unconditionally, a
passing message is matched, and a rejected message is recorded in
filtered_by.  The filtered counters are incremented (for every rejecting
rule) only in the branch where no rule matched. -/
def centralHandler (entries : List DispatchEntry) (message : TLMessage)
    (chat_id : Int) (sender_id : Option Int) : DispatchResult :=
  let step := fun (acc : List Nat × List Nat) (ir : Nat × DispatchEntry) =>
    if ir.2.source_chats.contains chat_id then
      if message.grouped_id.isSome then (acc.1 ++ [ir.1], acc.2)
      else if ir.2.filter.should_forward (.msg message) sender_id then
        (acc.1 ++ [ir.1], acc.2)
      else (acc.1, acc.2 ++ [ir.1])
    else acc
  let pair := entries.enum.foldl step ([], [])
  { matched := pair.1
    filtered_by := pair.2
    increments := if pair.1.isEmpty then pair.2 else [] }

/-! ## MessageForwarder delivery (src/forwarder/forwarder.py) -/

/-- The three delivery strategies of the engine. -/
inductive Strategy
  | directForward
  | referenceCopy
  | downloadReupload
deriving DecidableEq

/-- The outcome of one transport call: success, the distinguished
ChatForwardsRestrictedError, or any other exception. -/
inductive SendOutcome
  | ok
  | restricted
  | generic
deriving DecidableEq

/-- An observable event of one forward_message run: a per-target delivery
attempt with its up-front strategy and outcome, a send of downloaded files
inside the restricted-error handler, a downloader.download call with its
returned paths, and a MediaDownloader.cleanup call with its argument. -/
inductive FwdEvent
  | attempt (target : Nat) (strat : Strategy) (outcome : SendOutcome)
  | fbSend (target : Nat) (outcome : SendOutcome)
  | download (paths : List String)
  | cleanup (paths : List String)
deriving DecidableEq

/-- The rule flags forward_message and _forward_normal read for strategy
selection.  hide_sender is listed although the ForwardingRule dataclass
does not declare it: forward_message reads it regardless (see the theorem
on forwarderRuleReads). -/
structure RuleView where
  hide_sender : Bool
  force_forward : Bool
  preserve_format : Bool

/-- The environment of transport outcomes for one forward_message run:
per-target outcome of _forward_normal, per-target outcome of _send_files,
the paths returned by the proactive downloader.download call, and the
paths returned by a downloader.download call made inside the
restricted-error handler at a given target. -/
structure DeliverEnv where
  normalOutcome : Nat → SendOutcome
  filesOutcome : Nat → SendOutcome
  proactiveDownload : List String
  fbDownload : Nat → List String

/-- The mutable state of the target loop in forward_message: the
downloaded_files variable, the success_count variable, and the event
trace. -/
structure DeliverState where
  downloaded : List String
  success : Nat
  events : List FwdEvent

/-- The strategy _forward_normal executes, in source order: hide_sender
first, then the noforwards restriction, then preserve_format, each falling
through to reference copy. -/
def normalStrategy (rv : RuleView) (is_noforwards : Bool) : Strategy :=
  if rv.hide_sender then .referenceCopy
  else if is_noforwards then .referenceCopy
  else if rv.preserve_format then .directForward
  else .referenceCopy

/-- The body of the target loop of forward_message for one target: with
downloaded files on hand the target is served by _send_files, otherwise by
_forward_normal; a ChatForwardsRestrictedError from either is caught and
answered by downloading (if not yet downloaded) and sending the files,
any other exception is only logged. -/
def targetStep (env : DeliverEnv) (rv : RuleView) (is_noforwards : Bool)
    (s : DeliverState) (i : Nat) : DeliverState :=
  if !s.downloaded.isEmpty then
    match env.filesOutcome i with
    | .ok =>
        { s with success := s.success + 1
                 events := s.events ++ [.attempt i .downloadReupload .ok] }
    | .restricted =>
        let ev0 := s.events ++ [.attempt i .downloadReupload .restricted]
        match env.filesOutcome i with
        | .ok => { s with success := s.success + 1
                          events := ev0 ++ [.fbSend i .ok] }
        | o => { s with events := ev0 ++ [.fbSend i o] }
    | .generic =>
        { s with events := s.events ++ [.attempt i .downloadReupload .generic] }
  else
    let strat := normalStrategy rv is_noforwards
    match env.normalOutcome i with
    | .ok =>
        { s with success := s.success + 1
                 events := s.events ++ [.attempt i strat .ok] }
    | .restricted =>
        let dl := env.fbDownload i
        let ev0 := s.events ++ [.attempt i strat .restricted, .download dl]
        if dl.isEmpty then { s with downloaded := dl, events := ev0 }
        else
          match env.filesOutcome i with
          | .ok =>
              { downloaded := dl, success := s.success + 1
                events := ev0 ++ [.fbSend i .ok] }
          | o =>
              { downloaded := dl, success := s.success
                events := ev0 ++ [.fbSend i o] }
    | .generic =>
        { s with events := s.events ++ [.attempt i strat .generic] }

/-- The target loop of forward_message followed by the cleanup step: after
all targets, MediaDownloader.cleanup is called on downloaded_files exactly
when that list is nonempty. -/
def forwardDeliver (env : DeliverEnv) (rv : RuleView) (is_noforwards : Bool)
    (numTargets : Nat) (initDownloaded : List String) : DeliverState :=
  let s0 : DeliverState := { downloaded := initDownloaded, success := 0, events := [] }
  let s1 := (List.range numTargets).foldl (targetStep env rv is_noforwards) s0
  if s1.downloaded.isEmpty then s1
  else { s1 with events := s1.events ++ [.cleanup s1.downloaded] }

/-- The result of forward_message: the final loop state, the amount added
to forwarded_count by _log_result, and whether the target loop was reached
(false on the early returns for an empty target list or a failed proactive
download). -/
structure ForwardResult where
  state : DeliverState
  forwardedIncrement : Nat
  reachedLoop : Bool

/-- forward_message from the resource-preparation step on (steps 2-5 of
the source; media-group assembly, the group filter and deduplication are
modelled separately above): the proactive download happens when the source
chat has noforwards set and the rule forces forwarding, an empty download
aborts, then the target loop runs, cleanup fires, and _log_result adds one
to forwarded_count exactly when at least one target succeeded. -/
def forwardMessage (env : DeliverEnv) (rv : RuleView) (is_noforwards : Bool)
    (numTargets : Nat) : ForwardResult :=
  if numTargets = 0 then
    { state := { downloaded := [], success := 0, events := [] }
      forwardedIncrement := 0, reachedLoop := false }
  else
    let need_download := is_noforwards && rv.force_forward
    if need_download then
      let dl := env.proactiveDownload
      if dl.isEmpty then
        { state := { downloaded := dl, success := 0, events := [.download dl] }
          forwardedIncrement := 0, reachedLoop := false }
      else
        let s := forwardDeliver env rv is_noforwards numTargets dl
        { state := { s with events := .download dl :: s.events }
          forwardedIncrement := if s.success > 0 then 1 else 0
          reachedLoop := true }
    else
      let s := forwardDeliver env rv is_noforwards numTargets []
      { state := s
        forwardedIncrement := if s.success > 0 then 1 else 0
        reachedLoop := true }

/-- The per-target strategy the code actually selects up front, as a
function of whether downloaded files are already on hand and of the rule
flags. -/
def chooseStrategyCode (hasFiles hide_sender is_noforwards preserve_format : Bool) :
    Strategy :=
  if hasFiles then .downloadReupload
  else if hide_sender then .referenceCopy
  else if is_noforwards then .referenceCopy
  else if preserve_format then .directForward
  else .referenceCopy

/-- Modelled from the spec: the per-target strategy precedence as section
4.5 of the specification words it — hide_sender first, then the
restricted-and-forced case, then the restricted case, then
preserve_format.  Written from the words of the specification for
comparison with chooseStrategyCode. -/
def chooseStrategySpec (hide_sender is_noforwards force_forward preserve_format : Bool) :
    Strategy :=
  if hide_sender then .referenceCopy
  else if is_noforwards && force_forward then .downloadReupload
  else if is_noforwards then .referenceCopy
  else if preserve_format then .directForward
  else .referenceCopy

/-- The targets carrying a delivery attempt in a trace, in order. -/
def attemptTargets (events : List FwdEvent) : List Nat :=
  events.filterMap (fun e =>
    match e with
    | .attempt t _ _ => some t
    | _ => none)

/-- The number of successful transport sends recorded in a trace. -/
def okCount (events : List FwdEvent) : Nat :=
  (events.filter (fun e =>
    match e with
    | .attempt _ _ .ok => true
    | .fbSend _ .ok => true
    | _ => false)).length

/-- The cleanup calls recorded in a trace, each with its argument. -/
def cleanupCalls (events : List FwdEvent) : List (List String) :=
  events.filterMap (fun e =>
    match e with
    | .cleanup paths => some paths
    | _ => none)

/-- The downloader.download calls recorded in a trace, each with the list
of paths it returned. -/
def downloadCalls (events : List FwdEvent) : List (List String) :=
  events.filterMap (fun e =>
    match e with
    | .download paths => some paths
    | _ => none)

/-- Closed form of the transport outcome of the up-front delivery attempt
for one target: _send_files when downloaded files are on hand, else
_forward_normal. -/
def stepOutcome (env : DeliverEnv) (downloaded : List String) (i : Nat) :
    SendOutcome :=
  if downloaded.isEmpty then env.normalOutcome i else env.filesOutcome i

/-- Closed form of the events of the restricted-error handler for one
target: nothing unless the up-front attempt was restricted; then a resend
of the files on hand, or a download followed (if it yielded files) by a
send of those files. -/
def stepFallback (env : DeliverEnv) (downloaded : List String) (i : Nat) :
    List FwdEvent :=
  match stepOutcome env downloaded i with
  | .restricted =>
      if !downloaded.isEmpty then [.fbSend i (env.filesOutcome i)]
      else
        .download (env.fbDownload i) ::
          (if (env.fbDownload i).isEmpty then []
           else [.fbSend i (env.filesOutcome i)])
  | _ => []

/-- Closed form of the events one target-loop iteration appends. -/
def stepEvents (env : DeliverEnv) (rv : RuleView) (is_noforwards : Bool)
    (downloaded : List String) (i : Nat) : List FwdEvent :=
  .attempt i
      (chooseStrategyCode (!downloaded.isEmpty) rv.hide_sender is_noforwards
        rv.preserve_format)
      (stepOutcome env downloaded i) ::
    stepFallback env downloaded i

/-- Closed form of the downloaded_files variable after one target-loop
iteration: it changes only when a restricted error on a yet-undownloaded
message triggers the fallback download. -/
def stepDownloaded (env : DeliverEnv) (downloaded : List String) (i : Nat) :
    List String :=
  if downloaded.isEmpty && (env.normalOutcome i == .restricted) then
    env.fbDownload i
  else downloaded

/-- A concrete environment for exercising the strategy selection: every
send succeeds, the proactive download returns one file. -/
def envHideForced : DeliverEnv :=
  { normalOutcome := fun _ => .ok
    filesOutcome := fun _ => .ok
    proactiveDownload := ["a.bin"]
    fbDownload := fun _ => [] }

/-- A concrete environment in which the reference copy fails with a
generic error while a fallback download and resend would succeed. -/
def envGenericFail : DeliverEnv :=
  { normalOutcome := fun _ => .generic
    filesOutcome := fun _ => .ok
    proactiveDownload := []
    fbDownload := fun _ => ["b.bin"] }

/-- A concrete environment in which the up-front attempt hits the
restricted error and the fallback download returns one file. -/
def envRestrictedFallback : DeliverEnv :=
  { normalOutcome := fun _ => .restricted
    filesOutcome := fun _ => .ok
    proactiveDownload := []
    fbDownload := fun _ => ["f.bin"] }

/-- A dispatch entry whose filter accepts everything (blacklist mode, no
patterns). -/
def entryAcceptAll : DispatchEntry :=
  { source_chats := [5]
    filter := MessageFilter.init (fun _ => none) "a" [] [] "blacklist" [] [] [] 0 0 }

/-- A dispatch entry whose filter rejects everything (whitelist mode, no
patterns). -/
def entryRejectAll : DispatchEntry :=
  { source_chats := [5]
    filter := MessageFilter.init (fun _ => none) "b" [] [] "whitelist" [] [] [] 0 0 }

/-- A concrete plain-text message in chat 5. -/
def plainMessage : TLMessage :=
  { id := 1, chat_id := 5, grouped_id := none, text := "x", media := none }

/-! ## Theorems -/

/-- C4: the ForwardingRule dataclass of src/rule.py does not declare the
hide_sender, deduplicate or deduplicate_window attributes, although the
forwarder reads all three of them (MessageForwarder line 50 reads
rule.deduplicate and rule.deduplicate_window, forward_message lines
119-120 and _forward_normal line 163 read rule.hide_sender); the three
reads therefore fail on every rule produced by from_dict, contradicting
the claim that every ForwardingRule carries these attributes. -/
theorem claim_C4_missing_rule_attributes :
    ("hide_sender" ∈ forwarderRuleReads ∧ "hide_sender" ∉ ruleFieldNames) ∧
    ("deduplicate" ∈ forwarderRuleReads ∧ "deduplicate" ∉ ruleFieldNames) ∧
    ("deduplicate_window" ∈ forwarderRuleReads ∧
      "deduplicate_window" ∉ ruleFieldNames) := by
  decide

/-- C5 counterexample: a rule with empty keyword and regex lists but with
an ignored keyword rejects a message containing that keyword even in
blacklist mode, so should_forward is not mode == blacklist independent of
the message text. -/
theorem claim_C5_counterexample :
    (MessageFilter.init (fun _ => none) "r" [] [] "blacklist" [] ["spam"] [] 0 0).should_forward
      (.str "this is spam") none = false ∧
    (MessageFilter.init (fun _ => none) "r" [] [] "blacklist" [] ["spam"] [] 0 0).mode
      = "blacklist" := by
  constructor
  · decide
  · decide

/-- C5 as amended: for a rule whose keyword and regex-pattern lists are
both empty, should_forward returns exactly mode == blacklist for every
input that the ignore check does not reject and (for Message objects) that
passes the media-type and file-size checks. -/
theorem claim_C5_amended (compile : String → Option (String → Bool))
    (r : ForwardingRule) (hk : r.filter_keywords = [])
    (hp : r.filter_regex_patterns = []) (input : FilterInput)
    (sender_id : Option Int)
    (hig : (filterOfRule compile r).is_ignored input.textOf sender_id = false)
    (hmedia : ∀ m, input = .msg m →
      (filterOfRule compile r).check_media_type m = true)
    (hsize : ∀ m, input = .msg m →
      (filterOfRule compile r).check_file_size m = true) :
    (filterOfRule compile r).should_forward input sender_id
      = ((filterOfRule compile r).mode == "blacklist") := by
  cases input with
  | str t =>
      simp only [MessageFilter.should_forward, hig, Bool.false_eq_true,
        if_false]
      simp [filterOfRule, MessageFilter.init, hk, hp]
  | msg m =>
      simp only [MessageFilter.should_forward, hig, Bool.false_eq_true,
        if_false, hmedia m rfl, hsize m rfl]
      simp [filterOfRule, MessageFilter.init, hk, hp]

/-- C5 witness: the amended theorem applied to a concrete whitelist rule
with empty lists and a plain text input. -/
theorem claim_C5_witness :
    (filterOfRule (fun _ => none)
        { name := "r", enabled := true, source_chats := [1], target_chats := [2]
          filter_mode := "whitelist", filter_keywords := []
          filter_regex_patterns := [], filter_media_types := []
          filter_max_file_size := 0, filter_min_file_size := 0
          ignored_user_ids := [], ignored_keywords := []
          preserve_format := true, add_source_info := true
          delay := 0, force_forward := false }).should_forward
      (.str "hello world") none
    = ((filterOfRule (fun _ => none)
        { name := "r", enabled := true, source_chats := [1], target_chats := [2]
          filter_mode := "whitelist", filter_keywords := []
          filter_regex_patterns := [], filter_media_types := []
          filter_max_file_size := 0, filter_min_file_size := 0
          ignored_user_ids := [], ignored_keywords := []
          preserve_format := true, add_source_info := true
          delay := 0, force_forward := false }).mode == "blacklist") := by
  apply claim_C5_amended
  · rfl
  · rfl
  · decide
  · intro m hm; cases hm
  · intro m hm; cases hm

/-- C6: for a filter built (as bot_manager builds it) from a rule whose
ignored user ids come from from_dict, a sender id in the ignored set makes
should_forward return false for every input, mode, keyword list, regex
list, media type and file size: membership in the from_dict list implies
the id is nonzero, hence truthy, and the ignore check fires first. -/
theorem claim_C6_ignored_sender (compile : String → Option (String → Bool))
    (r : ForwardingRule) (raw : List Int)
    (hr : r.ignored_user_ids = fromDictIgnoredUserIds raw) (k : Int)
    (hk : k ∈ r.ignored_user_ids) (input : FilterInput) :
    (filterOfRule compile r).should_forward input (some k) = false := by
  have hkraw : k ∈ fromDictIgnoredUserIds raw := hr ▸ hk
  have hk0 : (k != 0) = true := by
    have := List.of_mem_filter hkraw
    simpa using this
  have hcontains : (filterOfRule compile r).ignored_user_ids.contains k = true := by
    simp only [filterOfRule, MessageFilter.init]
    exact List.elem_eq_true_of_mem hk
  have hign : (filterOfRule compile r).is_ignored input.textOf (some k) = true := by
    simp only [MessageFilter.is_ignored, senderTruthy, hk0, hcontains,
      Bool.and_self, if_true]
  simp [MessageFilter.should_forward, hign]

/-- C6 witness: a concrete rule ignoring user 42 rejects a message from
sender 42. -/
theorem claim_C6_witness :
    (filterOfRule (fun _ => none)
        { name := "r", enabled := true, source_chats := [1], target_chats := [2]
          filter_mode := "blacklist", filter_keywords := ["k"]
          filter_regex_patterns := [], filter_media_types := []
          filter_max_file_size := 0, filter_min_file_size := 0
          ignored_user_ids := fromDictIgnoredUserIds [42]
          ignored_keywords := []
          preserve_format := true, add_source_info := true
          delay := 0, force_forward := false }).should_forward
      (.str "anything") (some 42) = false :=
  claim_C6_ignored_sender _ _ [42] rfl 42 (by decide) _

/-- C7: fresh text is not a duplicate and is recorded at its arrival time;
a repeat within the window is a duplicate and leaves the stored timestamp
unchanged (so the entry still expires at the original window boundary,
as the third call shows); a repeat once the window has elapsed since the
first sighting is fresh again; blank text is never a duplicate. -/
theorem claim_C7_dedup_window (hash : String → String)
    (window t0 t1 t2 : Int) (text : String)
    (hblank : (text = "" || pyStrip text = "") = false)
    (h1 : t1 - t0 < window) (h2 : ¬ (t2 - t0 < window)) :
    ((DeduplicateCache.is_duplicate hash ⟨window, []⟩ text t0).1 = false ∧
     (DeduplicateCache.is_duplicate hash ⟨window, []⟩ text t0).2.cache
       = [(hash text, t0)] ∧
     (DeduplicateCache.is_duplicate hash ⟨window, [(hash text, t0)]⟩ text t1).1
       = true ∧
     (DeduplicateCache.is_duplicate hash ⟨window, [(hash text, t0)]⟩ text t1).2.cache
       = [(hash text, t0)] ∧
     (DeduplicateCache.is_duplicate hash ⟨window, [(hash text, t0)]⟩ text t2).1
       = false) ∧
    (∀ (c : DeduplicateCache) (s : String) (now : Int),
      (s = "" || pyStrip s = "") = true →
      (DeduplicateCache.is_duplicate hash c s now).1 = false) := by
  constructor
  · refine ⟨?_, ?_, ?_, ?_, ?_⟩ <;>
      simp [DeduplicateCache.is_duplicate, hblank, h1, h2, List.filter]
  · intro c s now hb
    simp [DeduplicateCache.is_duplicate, hb]

/-- C7 witness: the deduplication round trip on the text a with window 10,
at times 0, 5 and 10. -/
theorem claim_C7_witness :
    (DeduplicateCache.is_duplicate (fun s => s) ⟨10, []⟩ "a" 0).1 = false ∧
    (DeduplicateCache.is_duplicate (fun s => s) ⟨10, []⟩ "a" 0).2.cache
      = [("a", 0)] ∧
    (DeduplicateCache.is_duplicate (fun s => s) ⟨10, [("a", 0)]⟩ "a" 5).1
      = true ∧
    (DeduplicateCache.is_duplicate (fun s => s) ⟨10, [("a", 0)]⟩ "a" 5).2.cache
      = [("a", 0)] ∧
    (DeduplicateCache.is_duplicate (fun s => s) ⟨10, [("a", 0)]⟩ "a" 10).1
      = false :=
  (claim_C7_dedup_window (fun s => s) 10 0 5 10 "a" (by decide) (by decide)
    (by decide)).1

/-- C8: a media group with no textual member is forwarded unconditionally,
and a group with at least one textual member is forwarded exactly when at
least one member individually passes the filter (OR semantics). -/
theorem claim_C8_group_or (messages : List TLMessage) (f : MessageFilter)
    (sender_id : Option Int) :
    ((∀ m ∈ messages, m.text = "") →
      mediaGroupShouldForward messages f sender_id = true) ∧
    ((∃ m ∈ messages, m.text ≠ "") →
      (mediaGroupShouldForward messages f sender_id = true ↔
        ∃ m ∈ messages, f.should_forward (.msg m) sender_id = true)) := by
  constructor
  · intro hall
    have hany : messages.any (fun m => m.text != "") = false := by
      simp only [List.any_eq_false, bne_iff_ne, ne_eq, not_not]
      exact hall
    simp [mediaGroupShouldForward, hany]
  · intro hex
    have hany : messages.any (fun m => m.text != "") = true := by
      rw [List.any_eq_true]
      obtain ⟨m, hm, ht⟩ := hex
      exact ⟨m, hm, by simpa using ht⟩
    simp [mediaGroupShouldForward, hany, List.any_eq_true]

/-- C8 witness: a pure-media singleton group passes unconditionally. -/
theorem claim_C8_witness :
    mediaGroupShouldForward [⟨1, 5, some 9, "", none⟩]
      (MessageFilter.init (fun _ => none) "r" [] [] "whitelist" [] [] [] 0 0)
      none = true :=
  (claim_C8_group_or _ _ _).1 (by decide)

/-- should_forward reads only the mode, the compiled patterns, the
keywords, the ignore lists, the media types and the size bounds: two
filter states agreeing on those agree on every verdict. -/
theorem should_forward_congr (f g : MessageFilter)
    (hmode : f.mode = g.mode)
    (hcp : f.compiled_patterns = g.compiled_patterns)
    (hkw : f.keywords = g.keywords)
    (hiu : f.ignored_user_ids = g.ignored_user_ids)
    (hik : f.ignored_keywords = g.ignored_keywords)
    (hmt : f.media_types = g.media_types)
    (hmax : f.max_file_size = g.max_file_size)
    (hmin : f.min_file_size = g.min_file_size) :
    ∀ input sender_id,
      f.should_forward input sender_id = g.should_forward input sender_id := by
  intro input sender_id
  simp only [MessageFilter.should_forward, MessageFilter.is_ignored,
    MessageFilter.check_media_type, MessageFilter.check_file_size,
    MessageFilter.matches_text, hmode, hcp, hkw, hiu, hik, hmt, hmax, hmin]

/-- C10: when every configured regex pattern fails to compile and the
keyword list is empty, should_forward behaves exactly as with no patterns
configured at all (only successfully compiled patterns exist at evaluation
time), and on every input that survives the ignore, media-type and
file-size checks it returns mode == blacklist. -/
theorem claim_C10_all_invalid_patterns
    (compile : String → Option (String → Bool)) (patterns : List String)
    (hpat : ∀ p ∈ patterns, compile p = none) (rule_name mode : String)
    (ignored_user_ids : List Int) (ignored_keywords media_types : List String)
    (max_file_size min_file_size : Nat) :
    (∀ input sender_id,
      (MessageFilter.init compile rule_name patterns [] mode ignored_user_ids
          ignored_keywords media_types max_file_size min_file_size).should_forward
        input sender_id
      = (MessageFilter.init compile rule_name [] [] mode ignored_user_ids
          ignored_keywords media_types max_file_size min_file_size).should_forward
        input sender_id) ∧
    (∀ input sender_id,
      (MessageFilter.init compile rule_name patterns [] mode ignored_user_ids
          ignored_keywords media_types max_file_size min_file_size).is_ignored
        input.textOf sender_id = false →
      (∀ m, input = .msg m →
        (MessageFilter.init compile rule_name patterns [] mode ignored_user_ids
            ignored_keywords media_types max_file_size min_file_size).check_media_type
          m = true) →
      (∀ m, input = .msg m →
        (MessageFilter.init compile rule_name patterns [] mode ignored_user_ids
            ignored_keywords media_types max_file_size min_file_size).check_file_size
          m = true) →
      (MessageFilter.init compile rule_name patterns [] mode ignored_user_ids
          ignored_keywords media_types max_file_size min_file_size).should_forward
        input sender_id
      = ((MessageFilter.init compile rule_name patterns [] mode ignored_user_ids
          ignored_keywords media_types max_file_size min_file_size).mode
          == "blacklist")) := by
  have hnil : patterns.filterMap compile = [] := by
    rw [List.filterMap_eq_nil_iff]
    exact hpat
  constructor
  · intro input sender_id
    exact should_forward_congr
      (MessageFilter.init compile rule_name patterns [] mode ignored_user_ids
        ignored_keywords media_types max_file_size min_file_size)
      (MessageFilter.init compile rule_name [] [] mode ignored_user_ids
        ignored_keywords media_types max_file_size min_file_size)
      rfl hnil rfl rfl rfl rfl rfl rfl input sender_id
  · intro input sender_id hig hmedia hsize
    cases input with
    | str t =>
        simp only [MessageFilter.should_forward, hig, Bool.false_eq_true,
          if_false]
        simp [MessageFilter.init, hnil]
    | msg m =>
        simp only [MessageFilter.should_forward, hig, Bool.false_eq_true,
          if_false, hmedia m rfl, hsize m rfl]
        simp [MessageFilter.init, hnil]

/-- C10 witness: a single malformed pattern under a compiler rejecting
every pattern, checked on a blacklist filter and a concrete text. -/
theorem claim_C10_witness :
    (MessageFilter.init (fun _ => none) "r" ["("] [] "blacklist" [] [] [] 0 0).should_forward
      (.str "hello") none
    = (MessageFilter.init (fun _ => none) "r" [] [] "blacklist" [] [] [] 0 0).should_forward
      (.str "hello") none :=
  (claim_C10_all_invalid_patterns (fun _ => none) ["("] (by intro p _; rfl)
    "r" "blacklist" [] [] [] 0 0).1 (.str "hello") none

/-- One target-loop iteration, restated in closed form: it appends the
events of stepEvents, adds the number of successful sends among them to
success_count, and updates downloaded_files as stepDownloaded says. -/
theorem targetStep_eq (env : DeliverEnv) (rv : RuleView) (is_noforwards : Bool)
    (s : DeliverState) (i : Nat) :
    targetStep env rv is_noforwards s i =
      { downloaded := stepDownloaded env s.downloaded i
        success := s.success + okCount (stepEvents env rv is_noforwards s.downloaded i)
        events := s.events ++ stepEvents env rv is_noforwards s.downloaded i } := by
  obtain ⟨d, sc, ev⟩ := s
  cases hd : d.isEmpty <;>
    rcases hf : env.filesOutcome i <;>
    rcases hn : env.normalOutcome i <;>
    cases hb : (env.fbDownload i).isEmpty <;>
    simp [targetStep, stepEvents, stepFallback, stepOutcome, stepDownloaded,
      okCount, chooseStrategyCode, normalStrategy, hd, hf, hn, hb,
      List.filter, List.append_assoc]

/-- okCount adds over trace concatenation. -/
theorem okCount_append (xs ys : List FwdEvent) :
    okCount (xs ++ ys) = okCount xs + okCount ys := by
  simp [okCount, List.filter_append]

/-- attemptTargets distributes over trace concatenation. -/
theorem attemptTargets_append (xs ys : List FwdEvent) :
    attemptTargets (xs ++ ys) = attemptTargets xs ++ attemptTargets ys := by
  simp [attemptTargets]

/-- cleanupCalls distributes over trace concatenation. -/
theorem cleanupCalls_append (xs ys : List FwdEvent) :
    cleanupCalls (xs ++ ys) = cleanupCalls xs ++ cleanupCalls ys := by
  simp [cleanupCalls]

/-- downloadCalls distributes over trace concatenation. -/
theorem downloadCalls_append (xs ys : List FwdEvent) :
    downloadCalls (xs ++ ys) = downloadCalls xs ++ downloadCalls ys := by
  simp [downloadCalls]

/-- Each loop iteration attempts exactly its own target. -/
theorem attemptTargets_stepEvents (env : DeliverEnv) (rv : RuleView)
    (is_noforwards : Bool) (d : List String) (i : Nat) :
    attemptTargets (stepEvents env rv is_noforwards d i) = [i] := by
  rcases ho : stepOutcome env d i <;>
    cases hd : d.isEmpty <;>
    cases hb : (env.fbDownload i).isEmpty <;>
    simp [stepEvents, stepFallback, attemptTargets, ho, hd, hb]

/-- No loop iteration emits a cleanup event. -/
theorem cleanupCalls_stepEvents (env : DeliverEnv) (rv : RuleView)
    (is_noforwards : Bool) (d : List String) (i : Nat) :
    cleanupCalls (stepEvents env rv is_noforwards d i) = [] := by
  rcases ho : stepOutcome env d i <;>
    cases hd : d.isEmpty <;>
    cases hb : (env.fbDownload i).isEmpty <;>
    simp [stepEvents, stepFallback, cleanupCalls, ho, hd, hb]

/-- The download calls of one loop iteration: exactly the fallback
download, emitted when a restricted error hits a yet-undownloaded
message. -/
theorem downloadCalls_stepEvents (env : DeliverEnv) (rv : RuleView)
    (is_noforwards : Bool) (d : List String) (i : Nat) :
    downloadCalls (stepEvents env rv is_noforwards d i)
      = (if d.isEmpty && (env.normalOutcome i == .restricted) then
          [env.fbDownload i] else []) := by
  rcases hn : env.normalOutcome i <;>
    rcases hf : env.filesOutcome i <;>
    cases hd : d.isEmpty <;>
    cases hb : (env.fbDownload i).isEmpty <;>
    simp [stepEvents, stepFallback, stepOutcome, downloadCalls, hn, hf, hd, hb]

/-- Over the whole target loop, the attempted targets are the initial ones
followed by every loop index, in order. -/
theorem foldl_attemptTargets (env : DeliverEnv) (rv : RuleView)
    (is_noforwards : Bool) (l : List Nat) :
    ∀ s : DeliverState,
      attemptTargets ((l.foldl (targetStep env rv is_noforwards) s).events)
        = attemptTargets s.events ++ l := by
  induction l with
  | nil => intro s; simp
  | cons i t ih =>
      intro s
      rw [List.foldl_cons, ih, targetStep_eq]
      simp [attemptTargets_append, attemptTargets_stepEvents]

/-- The target loop emits no cleanup event. -/
theorem foldl_cleanupCalls (env : DeliverEnv) (rv : RuleView)
    (is_noforwards : Bool) (l : List Nat) :
    ∀ s : DeliverState,
      cleanupCalls ((l.foldl (targetStep env rv is_noforwards) s).events)
        = cleanupCalls s.events := by
  induction l with
  | nil => intro s; simp
  | cons i t ih =>
      intro s
      rw [List.foldl_cons, ih, targetStep_eq]
      simp [cleanupCalls_append, cleanupCalls_stepEvents]

/-- Over the whole target loop, success_count grows by exactly the number
of successful sends recorded in the trace. -/
theorem foldl_success (env : DeliverEnv) (rv : RuleView)
    (is_noforwards : Bool) (l : List Nat) :
    ∀ s : DeliverState,
      (l.foldl (targetStep env rv is_noforwards) s).success
          + okCount s.events
        = s.success
          + okCount ((l.foldl (targetStep env rv is_noforwards) s).events) := by
  induction l with
  | nil => intro s; simp
  | cons i t ih =>
      intro s
      rw [List.foldl_cons, targetStep_eq]
      have h1 := ih
        { downloaded := stepDownloaded env s.downloaded i
          success := s.success
            + okCount (stepEvents env rv is_noforwards s.downloaded i)
          events := s.events ++ stepEvents env rv is_noforwards s.downloaded i }
      dsimp only at h1
      simp only [okCount_append] at h1
      omega

/-- Nonempty downloaded files persist through the target loop. -/
theorem foldl_downloaded_of_ne (env : DeliverEnv) (rv : RuleView)
    (is_noforwards : Bool) (l : List Nat) :
    ∀ s : DeliverState, s.downloaded ≠ [] →
      (l.foldl (targetStep env rv is_noforwards) s).downloaded
        = s.downloaded := by
  induction l with
  | nil => intro s _; rfl
  | cons i t ih =>
      intro s hs
      rw [List.foldl_cons]
      have hd : s.downloaded.isEmpty = false := by
        simpa [List.isEmpty_iff] using hs
      have hstep : (targetStep env rv is_noforwards s i).downloaded
          = s.downloaded := by
        rw [targetStep_eq]
        simp [stepDownloaded, hd]
      rw [ih _ (by rw [hstep]; exact hs), hstep]

/-- Through the target loop, every download call that returned a nonempty
path list returned exactly the final downloaded_files value. -/
theorem foldl_downloads_agree (env : DeliverEnv) (rv : RuleView)
    (is_noforwards : Bool) (l : List Nat) :
    ∀ s : DeliverState,
      (∀ p ∈ downloadCalls s.events, p ≠ [] → p = s.downloaded) →
      ∀ p ∈ downloadCalls ((l.foldl (targetStep env rv is_noforwards) s).events),
        p ≠ [] →
        p = (l.foldl (targetStep env rv is_noforwards) s).downloaded := by
  induction l with
  | nil => intro s hs; exact hs
  | cons i t ih =>
      intro s hs
      rw [List.foldl_cons]
      refine ih (targetStep env rv is_noforwards s i) ?_
      intro p hp hpne
      rw [targetStep_eq] at hp ⊢
      simp only [downloadCalls_append, List.mem_append,
        downloadCalls_stepEvents] at hp
      rcases hp with hp | hp
      · -- an old download call
        have hold := hs p hp hpne
        by_cases hd : s.downloaded.isEmpty = true
        · exact absurd (hold.trans (List.isEmpty_iff.mp hd)) hpne
        · have hd' : s.downloaded.isEmpty = false := by
            cases h : s.downloaded.isEmpty
            · rfl
            · exact absurd h hd
          simp [stepDownloaded, hd', hold]
      · -- the download call of this iteration, if any
        by_cases hcond : (s.downloaded.isEmpty
            && (env.normalOutcome i == SendOutcome.restricted)) = true
        · rw [hcond] at hp
          simp at hp
          simp [stepDownloaded, hcond, hp]
        · have : (s.downloaded.isEmpty
              && (env.normalOutcome i == SendOutcome.restricted)) = false := by
            cases h : (s.downloaded.isEmpty
                && (env.normalOutcome i == SendOutcome.restricted))
            · rfl
            · exact absurd h hcond
          rw [this] at hp
          simp at hp

/-- Characterization of the loop-plus-cleanup phase: every target is
attempted exactly once in order, success_count equals the successful sends
in the trace, cleanup runs exactly when downloaded_files is nonempty and
then exactly once, as the final event, with exactly that list, and every
nonempty download result equals the final downloaded_files value. -/
theorem forwardDeliver_spec (env : DeliverEnv) (rv : RuleView)
    (is_noforwards : Bool) (numTargets : Nat) (initDownloaded : List String) :
    attemptTargets (forwardDeliver env rv is_noforwards numTargets initDownloaded).events
      = List.range numTargets ∧
    (forwardDeliver env rv is_noforwards numTargets initDownloaded).success
      = okCount (forwardDeliver env rv is_noforwards numTargets initDownloaded).events ∧
    cleanupCalls (forwardDeliver env rv is_noforwards numTargets initDownloaded).events
      = (if (forwardDeliver env rv is_noforwards numTargets initDownloaded).downloaded.isEmpty
         then []
         else [(forwardDeliver env rv is_noforwards numTargets initDownloaded).downloaded]) ∧
    (¬ (forwardDeliver env rv is_noforwards numTargets initDownloaded).downloaded.isEmpty = true →
      ∃ pre,
        (forwardDeliver env rv is_noforwards numTargets initDownloaded).events
          = pre ++ [FwdEvent.cleanup
              (forwardDeliver env rv is_noforwards numTargets initDownloaded).downloaded]) ∧
    (∀ p ∈ downloadCalls (forwardDeliver env rv is_noforwards numTargets initDownloaded).events,
      p ≠ [] →
      p = (forwardDeliver env rv is_noforwards numTargets initDownloaded).downloaded) := by
  unfold forwardDeliver
  set s0 : DeliverState :=
    { downloaded := initDownloaded, success := 0, events := [] } with hs0
  set s1 := (List.range numTargets).foldl (targetStep env rv is_noforwards) s0
    with hs1
  have hat : attemptTargets s1.events = List.range numTargets := by
    rw [hs1, foldl_attemptTargets]
    simp [hs0, attemptTargets]
  have hok : s1.success = okCount s1.events := by
    have := foldl_success env rv is_noforwards (List.range numTargets) s0
    rw [← hs1] at this
    simpa [hs0, okCount] using this
  have hclean : cleanupCalls s1.events = [] := by
    rw [hs1, foldl_cleanupCalls]
    simp [hs0, cleanupCalls]
  have hdl : ∀ p ∈ downloadCalls s1.events, p ≠ [] → p = s1.downloaded := by
    rw [hs1]
    refine foldl_downloads_agree env rv is_noforwards _ s0 ?_
    simp [hs0, downloadCalls]
  cases hempty : s1.downloaded.isEmpty with
  | true =>
      simp only [hempty, if_true]
      exact ⟨hat, hok, by simp [hclean], by simp, hdl⟩
  | false =>
      simp only [hempty, if_false, Bool.false_eq_true]
      refine ⟨?_, ?_, ?_, ?_, ?_⟩
      · simpa [attemptTargets_append, attemptTargets] using hat
      · simpa [okCount_append, okCount] using hok
      · have h2 : cleanupCalls
            (s1.events ++ [FwdEvent.cleanup s1.downloaded])
            = [s1.downloaded] := by
          rw [cleanupCalls_append, hclean]
          simp [cleanupCalls]
        exact h2
      · intro _; exact ⟨s1.events, rfl⟩
      · intro p hp hpne
        simp only [downloadCalls_append, List.mem_append] at hp
        rcases hp with hp | hp
        · exact hdl p hp hpne
        · simp [downloadCalls] at hp

/-- C2: when some target fails with a generic (non-restricted) error,
every target is still attempted exactly once in order, and _log_result
adds 1 to forwarded_count exactly when the trace records at least one
successful send, and 0 when it records none — never once per target. -/
theorem claim_C2_every_target_attempted (env : DeliverEnv) (rv : RuleView)
    (is_noforwards : Bool) (numTargets : Nat) (hn : numTargets ≠ 0)
    (hready : (is_noforwards && rv.force_forward) = true →
      env.proactiveDownload ≠ [])
    (_hgen : ∃ i, i < numTargets ∧
      (env.normalOutcome i = .generic ∨ env.filesOutcome i = .generic)) :
    attemptTargets (forwardMessage env rv is_noforwards numTargets).state.events
      = List.range numTargets ∧
    (forwardMessage env rv is_noforwards numTargets).forwardedIncrement
      = (if 0 < okCount (forwardMessage env rv is_noforwards numTargets).state.events
         then 1 else 0) := by
  have hspec := forwardDeliver_spec env rv is_noforwards numTargets
  unfold forwardMessage
  rw [if_neg hn]
  cases hneed : (is_noforwards && rv.force_forward) with
  | false =>
      dsimp only
      obtain ⟨hat, hok, -, -, -⟩ := hspec []
      refine ⟨hat, ?_⟩
      rw [hok]
      rcases Nat.eq_zero_or_pos
        (okCount (forwardDeliver env rv is_noforwards numTargets []).events)
        with h0 | h0
      · simp [h0]
      · simp [h0, Nat.pos_iff_ne_zero.mp h0]
  | true =>
      have hproact : env.proactiveDownload ≠ [] := hready hneed
      have hpe : env.proactiveDownload.isEmpty = false := by
        simpa [List.isEmpty_iff] using hproact
      dsimp only
      simp only [hpe, Bool.false_eq_true, if_false, eq_self_iff_true, if_true]
      obtain ⟨hat, hok, -, -, -⟩ := hspec env.proactiveDownload
      constructor
      · simpa [attemptTargets] using hat
      · have hoks : okCount (FwdEvent.download env.proactiveDownload ::
            (forwardDeliver env rv is_noforwards numTargets
              env.proactiveDownload).events)
            = okCount (forwardDeliver env rv is_noforwards numTargets
              env.proactiveDownload).events := by
          simp [okCount]
        rw [hoks, hok]

/-- C2 witness: three targets, the second failing with a generic error;
all three are attempted and the forwarded counter gains exactly 1. -/
theorem claim_C2_witness :
    attemptTargets (forwardMessage
      { normalOutcome := fun i => if i = 1 then .generic else .ok
        filesOutcome := fun _ => .ok
        proactiveDownload := []
        fbDownload := fun _ => [] }
      { hide_sender := false, force_forward := false, preserve_format := true }
      false 3).state.events = List.range 3 ∧
    (forwardMessage
      { normalOutcome := fun i => if i = 1 then .generic else .ok
        filesOutcome := fun _ => .ok
        proactiveDownload := []
        fbDownload := fun _ => [] }
      { hide_sender := false, force_forward := false, preserve_format := true }
      false 3).forwardedIncrement
      = (if 0 < okCount (forwardMessage
          { normalOutcome := fun i => if i = 1 then .generic else .ok
            filesOutcome := fun _ => .ok
            proactiveDownload := []
            fbDownload := fun _ => [] }
          { hide_sender := false, force_forward := false, preserve_format := true }
          false 3).state.events then 1 else 0) := by
  apply claim_C2_every_target_attempted
  · decide
  · intro h; cases h
  · exact ⟨1, by decide, Or.inl rfl⟩

/-- The downloaded_files value after the loop-plus-cleanup phase is the
value after the loop. -/
theorem forwardDeliver_downloaded (env : DeliverEnv) (rv : RuleView)
    (is_noforwards : Bool) (numTargets : Nat) (initDownloaded : List String) :
    (forwardDeliver env rv is_noforwards numTargets initDownloaded).downloaded
      = ((List.range numTargets).foldl (targetStep env rv is_noforwards)
          { downloaded := initDownloaded, success := 0, events := [] }).downloaded := by
  unfold forwardDeliver
  dsimp only
  split <;> rfl

/-- forward_message in the regime without a proactive download. -/
theorem forwardMessage_eq_noneed (env : DeliverEnv) (rv : RuleView)
    (is_noforwards : Bool) (numTargets : Nat) (hn : numTargets ≠ 0)
    (hneed : (is_noforwards && rv.force_forward) = false) :
    forwardMessage env rv is_noforwards numTargets =
      { state := forwardDeliver env rv is_noforwards numTargets []
        forwardedIncrement :=
          if (forwardDeliver env rv is_noforwards numTargets []).success > 0
          then 1 else 0
        reachedLoop := true } := by
  unfold forwardMessage
  rw [if_neg hn]
  dsimp only
  simp only [hneed, Bool.false_eq_true, if_false]

/-- forward_message in the regime where the proactive download is needed
but returns no file: the early return. -/
theorem forwardMessage_eq_earlyfail (env : DeliverEnv) (rv : RuleView)
    (is_noforwards : Bool) (numTargets : Nat) (hn : numTargets ≠ 0)
    (hneed : (is_noforwards && rv.force_forward) = true)
    (hpe : env.proactiveDownload.isEmpty = true) :
    forwardMessage env rv is_noforwards numTargets =
      { state := { downloaded := env.proactiveDownload, success := 0
                   events := [.download env.proactiveDownload] }
        forwardedIncrement := 0, reachedLoop := false } := by
  unfold forwardMessage
  rw [if_neg hn]
  dsimp only
  simp only [hneed, hpe, eq_self_iff_true, if_true]

/-- forward_message in the regime with a successful proactive download. -/
theorem forwardMessage_eq_proactive (env : DeliverEnv) (rv : RuleView)
    (is_noforwards : Bool) (numTargets : Nat) (hn : numTargets ≠ 0)
    (hneed : (is_noforwards && rv.force_forward) = true)
    (hpe : env.proactiveDownload.isEmpty = false) :
    forwardMessage env rv is_noforwards numTargets =
      { state :=
          { downloaded :=
              (forwardDeliver env rv is_noforwards numTargets
                env.proactiveDownload).downloaded
            success :=
              (forwardDeliver env rv is_noforwards numTargets
                env.proactiveDownload).success
            events := .download env.proactiveDownload ::
              (forwardDeliver env rv is_noforwards numTargets
                env.proactiveDownload).events }
        forwardedIncrement :=
          if (forwardDeliver env rv is_noforwards numTargets
              env.proactiveDownload).success > 0 then 1 else 0
        reachedLoop := true } := by
  unfold forwardMessage
  rw [if_neg hn]
  dsimp only
  simp only [hneed, hpe, Bool.false_eq_true, if_false, eq_self_iff_true,
    if_true]

/-- C9: after forward_message, a nonempty downloaded_files list is cleaned
up exactly once, with exactly that list, as the final event of the run
(hence after all delivery attempts); with nothing downloaded there is no
cleanup call; and every download call that returned files returned the
cleaned-up list. -/
theorem claim_C9_cleanup_exactly_once (env : DeliverEnv) (rv : RuleView)
    (is_noforwards : Bool) (numTargets : Nat) :
    ((forwardMessage env rv is_noforwards numTargets).state.downloaded ≠ [] →
      cleanupCalls (forwardMessage env rv is_noforwards numTargets).state.events
        = [(forwardMessage env rv is_noforwards numTargets).state.downloaded] ∧
      ∃ pre, (forwardMessage env rv is_noforwards numTargets).state.events
        = pre ++ [FwdEvent.cleanup
            (forwardMessage env rv is_noforwards numTargets).state.downloaded]) ∧
    ((forwardMessage env rv is_noforwards numTargets).state.downloaded = [] →
      cleanupCalls (forwardMessage env rv is_noforwards numTargets).state.events
        = []) ∧
    (∀ p ∈ downloadCalls
        (forwardMessage env rv is_noforwards numTargets).state.events,
      p ≠ [] →
      p = (forwardMessage env rv is_noforwards numTargets).state.downloaded) := by
  by_cases hn : numTargets = 0
  · have hzero : forwardMessage env rv is_noforwards numTargets =
        { state := { downloaded := [], success := 0, events := [] }
          forwardedIncrement := 0, reachedLoop := false } := by
      unfold forwardMessage
      rw [if_pos hn]
    rw [hzero]
    refine ⟨fun h => absurd rfl h, fun _ => rfl, ?_⟩
    intro p hp
    simp [downloadCalls] at hp
  · cases hneed : (is_noforwards && rv.force_forward) with
    | false =>
        rw [forwardMessage_eq_noneed env rv is_noforwards numTargets hn hneed]
        obtain ⟨-, -, hclean, hlast, hdl⟩ :=
          forwardDeliver_spec env rv is_noforwards numTargets []
        dsimp only
        refine ⟨?_, ?_, hdl⟩
        · intro h
          have hne : (forwardDeliver env rv is_noforwards numTargets
              []).downloaded.isEmpty = false := by
            simpa [List.isEmpty_iff] using h
          refine ⟨by rw [hclean, hne]; rfl, hlast (by simp [hne])⟩
        · intro h
          have hemp : (forwardDeliver env rv is_noforwards numTargets
              []).downloaded.isEmpty = true := by
            simp [List.isEmpty_iff, h]
          rw [hclean, hemp]
          rfl
    | true =>
        by_cases hpec : env.proactiveDownload.isEmpty = true
        · rw [forwardMessage_eq_earlyfail env rv is_noforwards numTargets hn
            hneed hpec]
          dsimp only
          refine ⟨?_, fun _ => rfl, ?_⟩
          · intro h
            exact absurd (List.isEmpty_iff.mp hpec) h
          · intro p hp hpne
            simp [downloadCalls] at hp
            exact absurd (hp ▸ List.isEmpty_iff.mp hpec) hpne
        · have hpef : env.proactiveDownload.isEmpty = false := by
            cases h : env.proactiveDownload.isEmpty
            · rfl
            · exact absurd h hpec
          have hpne : env.proactiveDownload ≠ [] := by
            simpa [List.isEmpty_iff] using hpef
          rw [forwardMessage_eq_proactive env rv is_noforwards numTargets hn
            hneed hpef]
          obtain ⟨-, -, hclean, hlast, hdl⟩ :=
            forwardDeliver_spec env rv is_noforwards numTargets
              env.proactiveDownload
          have hdlv : (forwardDeliver env rv is_noforwards numTargets
              env.proactiveDownload).downloaded = env.proactiveDownload := by
            rw [forwardDeliver_downloaded]
            exact foldl_downloaded_of_ne env rv is_noforwards _
              { downloaded := env.proactiveDownload, success := 0, events := [] }
              hpne
          have hne : (forwardDeliver env rv is_noforwards numTargets
              env.proactiveDownload).downloaded.isEmpty = false := by
            rw [hdlv]; exact hpef
          dsimp only
          refine ⟨?_, ?_, ?_⟩
          · intro _
            constructor
            · have h1 : cleanupCalls (FwdEvent.download env.proactiveDownload ::
                  (forwardDeliver env rv is_noforwards numTargets
                    env.proactiveDownload).events)
                  = cleanupCalls (forwardDeliver env rv is_noforwards
                      numTargets env.proactiveDownload).events := by
                simp [cleanupCalls]
              rw [h1, hclean, hne]
              rfl
            · obtain ⟨pre, hpre⟩ := hlast (by simp [hne])
              refine ⟨FwdEvent.download env.proactiveDownload :: pre, ?_⟩
              rw [hpre]
              rfl
          · intro h
            rw [hdlv] at h
            exact absurd h hpne
          · intro p hp hpn
            have h2 : downloadCalls (FwdEvent.download env.proactiveDownload ::
                (forwardDeliver env rv is_noforwards numTargets
                  env.proactiveDownload).events)
                = env.proactiveDownload :: downloadCalls
                    (forwardDeliver env rv is_noforwards numTargets
                      env.proactiveDownload).events := by
              simp [downloadCalls]
            rw [h2] at hp
            rcases List.mem_cons.mp hp with hp | hp
            · rw [hp]
              exact hdlv.symm
            · exact hdl p hp hpn

/-- C9 witness: a restricted error on the only target triggers the
fallback download and a single cleanup with the downloaded file list. -/
theorem claim_C9_witness :
    cleanupCalls (forwardMessage envRestrictedFallback
      { hide_sender := false, force_forward := false, preserve_format := true }
      true 1).state.events
    = [(forwardMessage envRestrictedFallback
      { hide_sender := false, force_forward := false, preserve_format := true }
      true 1).state.downloaded] :=
  ((claim_C9_cleanup_exactly_once envRestrictedFallback
      { hide_sender := false, force_forward := false, preserve_format := true }
      true 1).1 (by decide)).1

/-- C1 counterexample: (a) with hide_sender, force_forward and a
restricted source chat all set, the code picks download-reupload up front
for the target (the proactive-download branch is checked before
hide_sender), while the claimed precedence demands reference-copy for a
hide_sender rule; (b) on a restricted source chat without force_forward, a
generic failure of the reference-copy attempt triggers no fallback at all
(no download, no file send, zero successes), while the claim demands a
fallback to download-reupload on any failure. -/
theorem claim_C1_counterexample :
    ((forwardMessage envHideForced
        { hide_sender := true, force_forward := true, preserve_format := true }
        true 1).state.events
      = [FwdEvent.download ["a.bin"],
         FwdEvent.attempt 0 .downloadReupload .ok,
         FwdEvent.cleanup ["a.bin"]] ∧
      chooseStrategySpec true true true true = .referenceCopy ∧
      Strategy.downloadReupload ≠ Strategy.referenceCopy) ∧
    ((forwardMessage envGenericFail
        { hide_sender := false, force_forward := false, preserve_format := true }
        true 1).state.events
      = [FwdEvent.attempt 0 .referenceCopy .generic] ∧
      (forwardMessage envGenericFail
        { hide_sender := false, force_forward := false, preserve_format := true }
        true 1).state.success = 0) := by
  constructor
  · refine ⟨by decide, by decide, by decide⟩
  · refine ⟨by decide, by decide⟩

/-- C1 as amended: the per-target up-front strategy is chosen by the code
precedence chooseStrategyCode — downloaded files on hand (proactively,
because the source chat restricts forwarding and force_forward is set, or
from the restricted-error fallback of an earlier target) come first, then
hide_sender, then the forwarding restriction, then preserve_format, else
reference-copy — and the fallback to download-reupload runs exactly on the
restricted error: on it the engine resends the files on hand or downloads
and sends, and no other outcome appends fallback events. -/
theorem claim_C1_amended (env : DeliverEnv) (rv : RuleView)
    (is_noforwards : Bool) (s : DeliverState) (i : Nat) :
    ∃ fb,
      (targetStep env rv is_noforwards s i).events
        = s.events ++ FwdEvent.attempt i
            (chooseStrategyCode (!s.downloaded.isEmpty) rv.hide_sender
              is_noforwards rv.preserve_format)
            (stepOutcome env s.downloaded i) :: fb ∧
      (stepOutcome env s.downloaded i ≠ .restricted → fb = []) ∧
      (stepOutcome env s.downloaded i = .restricted →
        fb = (if !s.downloaded.isEmpty then
                [FwdEvent.fbSend i (env.filesOutcome i)]
              else
                FwdEvent.download (env.fbDownload i) ::
                  (if (env.fbDownload i).isEmpty then []
                   else [FwdEvent.fbSend i (env.filesOutcome i)]))) := by
  refine ⟨stepFallback env s.downloaded i, ?_, ?_, ?_⟩
  · rw [targetStep_eq]
    rfl
  · intro h
    rcases ho : stepOutcome env s.downloaded i
    · simp [stepFallback, ho]
    · exact absurd ho h
    · simp [stepFallback, ho]
  · intro h
    simp [stepFallback, h]

/-- C1 witness: the amended theorem applied to a concrete step with files
on hand and a succeeding send. -/
theorem claim_C1_witness :
    (targetStep envHideForced
      { hide_sender := true, force_forward := true, preserve_format := true }
      true { downloaded := ["a.bin"], success := 0, events := [] } 0).events
      = [FwdEvent.attempt 0 .downloadReupload .ok] := by
  obtain ⟨fb, hev, hnr, -⟩ := claim_C1_amended envHideForced
    { hide_sender := true, force_forward := true, preserve_format := true }
    true { downloaded := ["a.bin"], success := 0, events := [] } 0
  rw [hev, hnr (by decide)]
  decide

/-- The dispatcher loop in closed form: the matched accumulator collects
(in order) the entries listening on the chat whose message is a media
group or passes the filter, the filtered accumulator the remaining
listening entries. -/
theorem centralHandler_loop (message : TLMessage) (chat_id : Int)
    (sender_id : Option Int) (l : List (Nat × DispatchEntry)) :
    ∀ acc : List Nat × List Nat,
      l.foldl (fun (acc : List Nat × List Nat) (ir : Nat × DispatchEntry) =>
        if ir.2.source_chats.contains chat_id then
          if message.grouped_id.isSome then (acc.1 ++ [ir.1], acc.2)
          else if ir.2.filter.should_forward (.msg message) sender_id then
            (acc.1 ++ [ir.1], acc.2)
          else (acc.1, acc.2 ++ [ir.1])
        else acc) acc
      = (acc.1 ++ (l.filter (fun ir => ir.2.source_chats.contains chat_id
            && (message.grouped_id.isSome
                || ir.2.filter.should_forward (.msg message) sender_id))).map
              (fun ir => ir.1),
         acc.2 ++ (l.filter (fun ir => ir.2.source_chats.contains chat_id
            && !(message.grouped_id.isSome
                || ir.2.filter.should_forward (.msg message) sender_id))).map
              (fun ir => ir.1)) := by
  induction l with
  | nil => intro acc; simp
  | cons ir t ih =>
      intro acc
      rw [List.foldl_cons, ih]
      by_cases hm : chat_id ∈ ir.2.source_chats <;>
        cases hg : message.grouped_id.isSome <;>
        cases hp : ir.2.filter.should_forward (.msg message) sender_id <;>
        simp [hm, hg, hp, List.filter_cons]

/-- _central_message_handler in closed form. -/
theorem centralHandler_eq (entries : List DispatchEntry) (message : TLMessage)
    (chat_id : Int) (sender_id : Option Int) :
    centralHandler entries message chat_id sender_id =
      { matched := (entries.enum.filter (fun ir =>
            ir.2.source_chats.contains chat_id
            && (message.grouped_id.isSome
                || ir.2.filter.should_forward (.msg message) sender_id))).map
          (fun ir => ir.1)
        filtered_by := (entries.enum.filter (fun ir =>
            ir.2.source_chats.contains chat_id
            && !(message.grouped_id.isSome
                || ir.2.filter.should_forward (.msg message) sender_id))).map
          (fun ir => ir.1)
        increments :=
          if ((entries.enum.filter (fun ir =>
              ir.2.source_chats.contains chat_id
              && (message.grouped_id.isSome
                  || ir.2.filter.should_forward (.msg message) sender_id))).map
            (fun ir => ir.1)).isEmpty
          then (entries.enum.filter (fun ir =>
              ir.2.source_chats.contains chat_id
              && !(message.grouped_id.isSome
                  || ir.2.filter.should_forward (.msg message) sender_id))).map
            (fun ir => ir.1)
          else [] } := by
  unfold centralHandler
  dsimp only
  rw [centralHandler_loop message chat_id sender_id entries.enum ([], [])]
  simp only [List.nil_append]

/-- C3 as amended: a rule whose source chats contain the chat and whose
filter rejects a non-media-group message is never handed the message, is
recorded in filtered_by, and the dispatcher increments the filtered
counters (of every rejecting rule) exactly when no rule matched. -/
theorem claim_C3_amended (entries : List DispatchEntry) (message : TLMessage)
    (chat_id : Int) (sender_id : Option Int) (i : Nat) (e : DispatchEntry)
    (he : entries[i]? = some e)
    (hchat : e.source_chats.contains chat_id = true)
    (hng : message.grouped_id = none)
    (hrej : e.filter.should_forward (.msg message) sender_id = false) :
    i ∉ (centralHandler entries message chat_id sender_id).matched ∧
    i ∈ (centralHandler entries message chat_id sender_id).filtered_by ∧
    (centralHandler entries message chat_id sender_id).increments
      = (if (centralHandler entries message chat_id sender_id).matched.isEmpty
         then (centralHandler entries message chat_id sender_id).filtered_by
         else []) := by
  rw [centralHandler_eq]
  refine ⟨?_, ?_, rfl⟩
  · intro hmem
    simp only [List.mem_map, List.mem_filter] at hmem
    obtain ⟨⟨j, entry⟩, ⟨hin, hcond⟩, hfst⟩ := hmem
    dsimp only at hfst hcond
    subst hfst
    have hj : entries[j]? = some entry :=
      List.mk_mem_enum_iff_getElem?.mp hin
    have hee : entry = e := by
      rw [he] at hj
      exact Option.some_injective _ hj.symm
    rw [hee] at hcond
    simp [hng, hrej] at hcond
  · simp only [List.mem_map, List.mem_filter]
    refine ⟨(i, e), ⟨List.mk_mem_enum_iff_getElem?.mpr he, ?_⟩, rfl⟩
    simp [hng, hrej]
    exact List.mem_of_elem_eq_true hchat

/-- C3 counterexample: two rules listen on chat 5; rule 0 accepts the
message and rule 1 rejects it; the dispatcher hands the message to rule 0
only, records rule 1 in filtered_by, but increments no filtered counter at
all — the increment for a rejecting rule happens only when no rule
matched, not regardless of other rules. -/
theorem claim_C3_counterexample :
    centralHandler [entryAcceptAll, entryRejectAll] plainMessage 5 none
      = { matched := [0], filtered_by := [1], increments := [] } := by
  decide

/-- C3 witness: a single rejecting rule; the message matches no rule, so
the rejecting rule sits in filtered_by, was not handed the message, and
the increment list is the filtered_by list. -/
theorem claim_C3_witness :
    0 ∉ (centralHandler [entryRejectAll] plainMessage 5 none).matched ∧
    0 ∈ (centralHandler [entryRejectAll] plainMessage 5 none).filtered_by ∧
    (centralHandler [entryRejectAll] plainMessage 5 none).increments
      = (if (centralHandler [entryRejectAll] plainMessage 5 none).matched.isEmpty
         then (centralHandler [entryRejectAll] plainMessage 5 none).filtered_by
         else []) :=
  claim_C3_amended [entryRejectAll] plainMessage 5 none 0 entryRejectAll
    rfl (by decide) rfl (by decide)

end Telerelay
